import Mathlib

attribute [local semireducible] Rat.mul Rat.inv Rat.add Rat.sub

/-!
Verification of the affiliate payout pipeline of `yearn/affiliates.py`.

The development shallowly embeds the numeric pipeline: the tier table and
`get_tier`, the per-wrapper snapshot rows built in `Partner.process`, the
cumulative balance series (`pivot_table(...).ffill().sum(axis=1)`), the tier
join, and the monthly payout export (`pivot_table(...).resample("1M").sum()`
followed by `stack`).  Monetary values are rationals; a pivot cell with no
observation is `Option.none` (pandas `NaN`), and sums skip `none` exactly as
pandas sums skip `NaN`.  A separate small model of IEEE float semantics
(`FVal`) is used for the zero-`total_supply` division behaviour, where the
rational field semantics would be unfaithful.
-/

/-- The tier table of `affiliates.py` (lines 20-31): cumulative USD balance
thresholds mapped to payout rates, in the order the source writes them.
The float literals `0.10`, ..., `0.5` are the exact rationals below. -/
def TIERS : List (ℚ × ℚ) :=
  [(0, 0), (1000000, 1/10), (5000000, 3/20), (10000000, 1/5),
   (50000000, 1/4), (100000000, 3/10), (200000000, 7/20),
   (400000000, 2/5), (700000000, 9/20), (1000000000, 1/2)]

/-- `sorted(TIERS)`: the threshold keys in ascending order. -/
def tierKeys : List ℚ :=
  List.insertionSort (fun a b => a ≤ b) (TIERS.map Prod.fst)

/-- Python `bisect.bisect_right(keys, x)` for an ascending `keys`: the number
of leading elements `≤ x`, i.e. the insertion point right of every element
equal to `x`. -/
def bisect_right (keys : List ℚ) (x : ℚ) : Nat :=
  (keys.takeWhile (fun k => decide (k ≤ x))).length

/-- Python list indexing `l[i]`: a negative index counts from the end
(`l[-1]` is the last element); an index out of range is an `IndexError`,
here `none`. -/
def pyGet {α : Type} (l : List α) (i : Int) : Option α :=
  if 0 ≤ i then l.get? i.toNat
  else if -i ≤ (l.length : Int) then l.get? (l.length - (-i).toNat)
  else none

/-- `get_tier` (lines 34-37): right-biased bisection over the sorted keys,
then the table rate of the selected key.  `none` would be an uncaught
`IndexError`; the table being nonempty, it never occurs. -/
def get_tier (amount : ℚ) : Option ℚ :=
  (pyGet tierKeys ((bisect_right tierKeys amount : Int) - 1)).bind
    (fun k => TIERS.lookup k)

/-- The rate `get_tier` returns, as a total function (the table is nonempty,
so the lookup never fails; `get_tier_eq_some` proves the agreement). -/
def tier_of (amount : ℚ) : ℚ :=
  (get_tier amount).getD 0

/-- Spec reading of the tier lookup: the rate of the greatest threshold less
than or equal to the amount. -/
def tierSpec (amount : ℚ) : Option ℚ :=
  ((TIERS.map Prod.fst).filter (fun k => decide (k ≤ amount))).max?.bind
    (fun k => TIERS.lookup k)

/-- The tier ladder as a step function of the amount, used to bridge interval
reasoning about `get_tier`. -/
def tierStep (a : ℚ) : ℚ :=
  if a < 1000000 then 0
  else if a < 5000000 then 1/10
  else if a < 10000000 then 3/20
  else if a < 50000000 then 1/5
  else if a < 100000000 then 1/4
  else if a < 200000000 then 3/10
  else if a < 400000000 then 7/20
  else if a < 700000000 then 2/5
  else if a < 1000000000 then 9/20
  else 1/2

/-- One row of a wrapper snapshot frame (`Partner.process`, lines 99-115):
the queried columns and the derived columns.  `share` uses rational division
(`x / 0 = 0` in `ℚ`); rows with `total_supply = 0` are treated separately by
the IEEE-style model `FVal` below, since there pandas produces non-finite
floats rather than field values. -/
structure SnapRow where
  block : Nat
  timestamp : Nat
  protocol_fee : ℚ
  balance : ℚ
  total_supply : ℚ
  vault_price : ℚ
  balance_usd : ℚ
  share : ℚ
  payout_base : ℚ
  wrapper : String
  vault : String
deriving DecidableEq

/-- One wrapper of a partner, together with the external collaborator data
`Partner.process` queries for it: the fee-event mapping (block to fee, the
dict `get_protocol_fees` returns, keys distinct) and the per-block balance,
total-supply, price and timestamp lookups (`Wrapper.balances`,
`Wrapper.total_supplies`, `Wrapper.vault_prices`, `get_timestamps`). -/
structure WrapperData where
  name : String
  vault : String
  wrapper : String
  fees : List (Nat × ℚ)
  balanceAt : Nat → ℚ
  supplyAt : Nat → ℚ
  priceAt : Nat → ℚ
  tsAt : Nat → Nat

/-- A partner: name, treasury address, wrappers (the `Partner` dataclass). -/
structure PartnerData where
  name : String
  treasury : String
  wrappers : List WrapperData

/-- The snapshot frame of one wrapper (lines 99-115): one row per fee event,
with the derived columns `balance_usd = balance * vault_price`,
`share = balance / total_supply`,
`payout_base = share * protocol_fee * 0.65`. -/
def buildWrapper (w : WrapperData) : List SnapRow :=
  w.fees.map (fun bf =>
    let b := bf.1
    let bal := w.balanceAt b
    let ts := w.supplyAt b
    let sh := bal / ts
    { block := b
      timestamp := w.tsAt b
      protocol_fee := bf.2
      balance := bal
      total_supply := ts
      vault_price := w.priceAt b
      balance_usd := bal * w.priceAt b
      share := sh
      payout_base := sh * bf.2 * (13/20)
      wrapper := w.wrapper
      vault := w.vault })

/-- The `ValueError` Python raises in
`blocks, protocol_fees = zip(*protocol_fees.items())` (line 98) when the
fee-event dict of a wrapper is empty: `zip()` of nothing cannot be unpacked
into two names. -/
def emptyFeesMsg : String := "ValueError: not enough values to unpack"

/-- The wrapper loop of `Partner.process` (lines 96-118): each wrapper is
snapshotted in turn and the frames are concatenated (`pd.concat`, line 121,
which keeps every row).  A wrapper with no fee events raises. -/
def snapshotAll : List WrapperData → Except String (List SnapRow)
  | [] => .ok []
  | w :: ws =>
    if w.fees.isEmpty then .error emptyFeesMsg
    else
      match snapshotAll ws with
      | .error e => .error e
      | .ok rest => .ok (buildWrapper w ++ rest)

/-- The row index of the pivot `pd.pivot_table(partner, "balance_usd",
"block", "vault", "sum")` (line 122): the distinct blocks, ascending. -/
def blockIndex (rows : List SnapRow) : List Nat :=
  List.insertionSort (fun a b => a ≤ b) (rows.map (fun r => r.block)).dedup

/-- The distinct vault columns of the pivot.  (pandas sorts columns
lexicographically; the development keeps first-appearance order, which only
permutes the per-vault summation and never affects any summed value.) -/
def vaultCols (rows : List SnapRow) : List String :=
  (rows.map (fun r => r.vault)).dedup

/-- One pivot cell: the sum of `balance_usd` over the rows at this block for
this vault, or `none` (pandas `NaN`) when no row observes the pair. -/
def cellSum (rows : List SnapRow) (b : Nat) (v : String) : Option ℚ :=
  let obs := rows.filter (fun r => decide (r.block = b ∧ r.vault = v))
  if obs.isEmpty then none else some ((obs.map (fun r => r.balance_usd)).sum)

/-- `DataFrame.ffill` down one pivot column: a left-to-right scan over the
ascending block index carrying the last non-`NaN` cell. -/
def ffillList (f : Nat → Option ℚ) : List Nat → Option ℚ → List (Nat × Option ℚ)
  | [], _ => []
  | b :: bs, prev =>
    let cur := match f b with
      | some v => some v
      | none => prev
    (b, cur) :: ffillList f bs cur

/-- `pd.pivot_table(partner, "balance_usd", "block", "vault",
"sum").ffill().sum(axis=1)` (line 122): the cumulative total-balance series,
one entry per distinct block; the row sum skips the still-`NaN` cells
(a row of only `NaN` sums to 0, as in pandas). -/
def totalBalances (rows : List SnapRow) : List (Nat × ℚ) :=
  let bs := blockIndex rows
  (blockIndex rows).map (fun b =>
    (b, ((vaultCols rows).map (fun v =>
      ((((ffillList (fun x => cellSum rows x v) bs none).lookup b).getD none).getD 0))).sum))

/-- Spec reading of one forward-filled pivot cell: the cell at the most
recent (greatest) observed block `≤ b` of this vault — `blockIndex` is
ascending, so `getLast?` of the filtered cells picks the greatest such
block; blocks after `b` are never consulted. -/
def specFilledValue (rows : List SnapRow) (v : String) (b : Nat) : Option ℚ :=
  (((blockIndex rows).filter (fun x => decide (x ≤ b))).filterMap
    (fun x => cellSum rows x v)).getLast?

/-- Spec reading of the cumulative total balance at block `b`: sum over the
vaults of the forward-filled balance, an absent vault counting as zero. -/
def cumBalance (rows : List SnapRow) (b : Nat) : ℚ :=
  ((vaultCols rows).map (fun v => (specFilledValue rows v b).getD 0)).sum

/-- A partner-ledger row: a snapshot row joined (by block, line 131) with
the per-block `tier` and the final `payout = payout_base * tier`
(line 132). -/
structure LedgerRow extends SnapRow where
  tier : ℚ
  payout : ℚ
deriving DecidableEq

/-- Lines 122-132 of `Partner.process`: the tier series
`total_balances.apply(get_tier)` joined onto the concatenated frame (every
block of a row appears in the pivot index, so the lookup never misses), and
`payout = payout_base * tier`. -/
def addTiers (rows : List SnapRow) : List LedgerRow :=
  rows.map (fun r =>
    let t := tier_of (((totalBalances rows).lookup r.block).getD 0)
    { toSnapRow := r, tier := t, payout := r.payout_base * t })

/-- The calendar month of a unix timestamp, as `year * 12 + (month - 1)`,
by the standard civil-from-days calculation.  This models the month-end
bucketing of `resample("1M")` (a timestamp on any day of month M belongs to
the bucket labelled with M's last day); buckets are in bijection with their
month-end labels, so rows are keyed by this month number. -/
def monthIdx (t : Nat) : Nat :=
  let z := t / 86400 + 719468
  let era := z / 146097
  let doe := z % 146097
  let yoe := (doe - doe / 1460 + doe / 36524 - doe / 146096) / 365
  let doy := doe - (365 * yoe + yoe / 4 - yoe / 100)
  let mp := (5 * doy + 2) / 153
  let m := if mp < 10 then mp + 3 else mp - 9
  let y := era * 400 + yoe + (if m ≤ 2 then 1 else 0)
  y * 12 + (m - 1)

/-- The month range `resample("1M")` generates: from the earliest to the
latest month observed (an empty frame resamples to nothing). -/
def monthSpan : List Nat → Option (Nat × Nat)
  | [] => none
  | m :: rest => some (rest.foldl min m, rest.foldl max m)

/-- One exported payout row (`export_payouts`, lines 140-151):
month bucket, partner name, vault token, treasury address, amount. -/
structure PayoutRow where
  timestamp : Nat
  partner : String
  token : String
  treasury : String
  amount : ℚ
deriving DecidableEq

/-- `export_payouts` (lines 140-151): pivot `payout` by (timestamp, vault)
summing, resample to calendar months (every month from first to last
observed appears, value 0 where nothing was summed — after `sum()` no `NaN`
remains), and stack to long form, months major, vaults minor. -/
def exportPayouts (p : PartnerData) (ledger : List LedgerRow) : List PayoutRow :=
  match monthSpan (ledger.map (fun r => monthIdx r.timestamp)) with
  | none => []
  | some (lo, hi) =>
    let months := List.range' lo (hi + 1 - lo)
    let vs := (ledger.map (fun r => r.vault)).dedup
    let keys := months ×ˢ vs
    keys.map (fun mv =>
      { timestamp := mv.1
        partner := p.name
        token := mv.2
        treasury := p.treasury
        amount := ((ledger.filter (fun r =>
          decide (monthIdx r.timestamp = mv.1 ∧ r.vault = mv.2))).map
            (fun r => r.payout)).sum })

/-- `Partner.process` (lines 95-138): snapshot all wrappers, concatenate,
attach tiers and payouts, export the monthly payouts.  Returns the partner
ledger and the exported payout rows, or the uncaught Python exception. -/
def processPartner (p : PartnerData) :
    Except String (List LedgerRow × List PayoutRow) :=
  match snapshotAll p.wrappers with
  | .error e => .error e
  | .ok rows =>
    let ledger := addTiers rows
    .ok (ledger, exportPayouts p ledger)

/-- A float value as pandas produces it in `wrap.balance / wrap.total_supply`
(line 111): numpy float64 division follows IEEE-754 (positive zero), so a
zero divisor yields an infinity or NaN, never an exception.  Finite values
are kept exact as rationals. -/
inductive FVal where
  | nan : FVal
  | posInf : FVal
  | negInf : FVal
  | fin : ℚ → FVal
deriving DecidableEq

/-- IEEE-754 multiplication on `FVal` (positive zero only). -/
def FVal.mul : FVal → FVal → FVal
  | nan, _ => nan
  | posInf, nan => nan
  | negInf, nan => nan
  | fin _, nan => nan
  | fin a, fin b => fin (a * b)
  | posInf, fin b => if b = 0 then nan else if 0 < b then posInf else negInf
  | fin a, posInf => if a = 0 then nan else if 0 < a then posInf else negInf
  | negInf, fin b => if b = 0 then nan else if 0 < b then negInf else posInf
  | fin a, negInf => if a = 0 then nan else if 0 < a then negInf else posInf
  | posInf, posInf => posInf
  | posInf, negInf => negInf
  | negInf, posInf => negInf
  | negInf, negInf => posInf

/-- IEEE-754 division on `FVal` (positive zero only): a finite nonzero
numerator over zero is a signed infinity, `0/0` is NaN. -/
def FVal.div : FVal → FVal → FVal
  | nan, _ => nan
  | posInf, nan => nan
  | negInf, nan => nan
  | fin _, nan => nan
  | fin a, fin b =>
    if b = 0 then (if a = 0 then nan else if 0 < a then posInf else negInf)
    else fin (a / b)
  | posInf, fin b => if 0 ≤ b then posInf else negInf
  | negInf, fin b => if 0 ≤ b then negInf else posInf
  | fin _, posInf => fin 0
  | fin _, negInf => fin 0
  | posInf, posInf => nan
  | posInf, negInf => nan
  | negInf, posInf => nan
  | negInf, negInf => nan

/-- Whether a float value is finite (neither NaN nor an infinity). -/
def FVal.isFinite : FVal → Bool
  | fin _ => true
  | _ => false

/-- Line 111 under float semantics: `share = balance / total_supply`. -/
def shareF (balance total_supply : ℚ) : FVal :=
  FVal.div (.fin balance) (.fin total_supply)

/-- Line 112 under float semantics:
`payout_base = share * protocol_fee * 0.65`. -/
def payoutBaseF (balance total_supply fee : ℚ) : FVal :=
  ((shareF balance total_supply).mul (.fin fee)).mul (.fin (13/20))

/-- The carried value of a forward-fill scan: the last `some` of the scanned
cells, or the carried-in value when none is. -/
def lastSome (prev : Option ℚ) (l : List (Option ℚ)) : Option ℚ :=
  l.foldl (fun acc o => match o with
    | some v => some v
    | none => acc) prev

/-- Example data for the forward-fill scenario of the spec: vault `X`
observed at blocks 1 and 5 with 100 and 200 USD, vault `Y` first observed at
block 5 with 50 USD (derived fields consistent: price 1). -/
def c1Rows : List SnapRow :=
  [ { block := 1, timestamp := 86400, protocol_fee := 1, balance := 100,
      total_supply := 1000, vault_price := 1, balance_usd := 100,
      share := 1/10, payout_base := (1/10) * 1 * (13/20), wrapper := "wx",
      vault := "X" },
    { block := 5, timestamp := 432000, protocol_fee := 1, balance := 200,
      total_supply := 1000, vault_price := 1, balance_usd := 200,
      share := 1/5, payout_base := (1/5) * 1 * (13/20), wrapper := "wx",
      vault := "X" },
    { block := 5, timestamp := 432000, protocol_fee := 1, balance := 50,
      total_supply := 500, vault_price := 1, balance_usd := 50,
      share := 1/10, payout_base := (1/10) * 1 * (13/20), wrapper := "wy",
      vault := "Y" } ]

/-- Concrete partner for the per-block tier scenario: two wrappers on
different vaults, both with a fee event at block 10. -/
def c2W1 : WrapperData :=
  { name := "w1", vault := "V1", wrapper := "0xW1", fees := [(10, 2)],
    balanceAt := fun _ => 100, supplyAt := fun _ => 200,
    priceAt := fun _ => 1, tsAt := fun _ => 86400 }

/-- Second wrapper of the per-block tier scenario. -/
def c2W2 : WrapperData :=
  { name := "w2", vault := "V2", wrapper := "0xW2", fees := [(10, 4)],
    balanceAt := fun _ => 50, supplyAt := fun _ => 100,
    priceAt := fun _ => 2, tsAt := fun _ => 86400 }

/-- The two-wrapper partner of the per-block tier scenario. -/
def c2Partner : PartnerData :=
  { name := "p2", treasury := "0xT2", wrappers := [c2W1, c2W2] }

/-- The concatenated snapshot rows of `c2Partner`. -/
def c2Rows : List SnapRow :=
  match snapshotAll c2Partner.wrappers with
  | .ok rows => rows
  | .error _ => []

/-- The processed output of `c2Partner`. -/
def c2Out : List LedgerRow × List PayoutRow :=
  match processPartner c2Partner with
  | .ok o => o
  | .error _ => ([], [])

/-- A wrapper with no fee events at all. -/
def c4EmptyW : WrapperData :=
  { name := "empty", vault := "V1", wrapper := "0xE", fees := [],
    balanceAt := fun _ => 0, supplyAt := fun _ => 1,
    priceAt := fun _ => 1, tsAt := fun _ => 0 }

/-- A sibling wrapper with one fee event. -/
def c4GoodW : WrapperData :=
  { name := "good", vault := "V2", wrapper := "0xG", fees := [(5, 1)],
    balanceAt := fun _ => 10, supplyAt := fun _ => 20,
    priceAt := fun _ => 1, tsAt := fun _ => 86400 }

/-- A partner holding one empty wrapper next to a normal sibling. -/
def c4Partner : PartnerData :=
  { name := "p4", treasury := "0xT4", wrappers := [c4EmptyW, c4GoodW] }

/-- A partner holding only the empty wrapper. -/
def c4wPartner : PartnerData :=
  { name := "p4w", treasury := "0xT4w", wrappers := [c4EmptyW] }

/-- A wrapper fully holding its vault: balance equals total supply. -/
def c9W : WrapperData :=
  { name := "w9", vault := "V9", wrapper := "0x9", fees := [(100, 10)],
    balanceAt := fun _ => 100, supplyAt := fun _ => 100,
    priceAt := fun _ => 1, tsAt := fun _ => 0 }

/-- The snapshot row `buildWrapper` produces for `c9W`. -/
def c9Row : SnapRow :=
  { block := 100, timestamp := 0, protocol_fee := 10, balance := 100,
    total_supply := 100, vault_price := 1, balance_usd := 100, share := 1,
    payout_base := 13/2, wrapper := "0x9", vault := "V9" }

/-- A one-wrapper partner whose cumulative balance stays below the first
positive tier threshold, so every tier is 0 and every payout is 0. -/
def c6W : WrapperData :=
  { name := "w6", vault := "V6", wrapper := "0x6", fees := [(100, 10)],
    balanceAt := fun _ => 50, supplyAt := fun _ => 100,
    priceAt := fun _ => 1, tsAt := fun _ => 0 }

/-- The partner of the zero-amount export scenario. -/
def c6Partner : PartnerData :=
  { name := "p6", treasury := "0xT6", wrappers := [c6W] }

/-- The processed output of `c6Partner`. -/
def c6Out : List LedgerRow × List PayoutRow :=
  match processPartner c6Partner with
  | .ok o => o
  | .error _ => ([], [])

/-- The sorted key list, concretely (the source table is already ascending). -/
theorem tierKeys_eq :
    tierKeys = [0, 1000000, 5000000, 10000000, 50000000, 100000000,
                200000000, 400000000, 700000000, 1000000000] := by
  decide

/-- Interval sweep over the configured ladder: for a nonnegative amount,
`get_tier` agrees with the greatest-threshold spec reading and with the
explicit step function. -/
theorem tier_cases (a : ℚ) (h0 : 0 ≤ a) :
    get_tier a = tierSpec a ∧ get_tier a = some (tierStep a) := by
  rcases lt_or_le a 1000000 with h1 | h1
  · have d0 : decide ((0:ℚ) ≤ a) = true := decide_eq_true h0
    have d1 : decide ((1000000:ℚ) ≤ a) = false := decide_eq_false (not_le.mpr (by linarith))
    have d2 : decide ((5000000:ℚ) ≤ a) = false := decide_eq_false (not_le.mpr (by linarith))
    have d3 : decide ((10000000:ℚ) ≤ a) = false := decide_eq_false (not_le.mpr (by linarith))
    have d4 : decide ((50000000:ℚ) ≤ a) = false := decide_eq_false (not_le.mpr (by linarith))
    have d5 : decide ((100000000:ℚ) ≤ a) = false := decide_eq_false (not_le.mpr (by linarith))
    have d6 : decide ((200000000:ℚ) ≤ a) = false := decide_eq_false (not_le.mpr (by linarith))
    have d7 : decide ((400000000:ℚ) ≤ a) = false := decide_eq_false (not_le.mpr (by linarith))
    have d8 : decide ((700000000:ℚ) ≤ a) = false := decide_eq_false (not_le.mpr (by linarith))
    have d9 : decide ((1000000000:ℚ) ≤ a) = false := decide_eq_false (not_le.mpr (by linarith))
    have e1 : bisect_right tierKeys a = 1 := by
      simp [bisect_right, tierKeys_eq, List.takeWhile, d0, d1]
    have e2 : (TIERS.map Prod.fst).filter (fun k => decide (k ≤ a)) = [0] := by
      simp [TIERS, List.filter, d0, d1, d2, d3, d4, d5, d6, d7, d8, d9]
    have e3 : tierStep a = 0 := by
      unfold tierStep
      rw [if_pos h1]
    simp only [get_tier, tierSpec, e1, e2, e3]
    exact ⟨by decide, by decide⟩
  rcases lt_or_le a 5000000 with h2 | h2
  · have d0 : decide ((0:ℚ) ≤ a) = true := decide_eq_true h0
    have d1 : decide ((1000000:ℚ) ≤ a) = true := decide_eq_true h1
    have d2 : decide ((5000000:ℚ) ≤ a) = false := decide_eq_false (not_le.mpr (by linarith))
    have d3 : decide ((10000000:ℚ) ≤ a) = false := decide_eq_false (not_le.mpr (by linarith))
    have d4 : decide ((50000000:ℚ) ≤ a) = false := decide_eq_false (not_le.mpr (by linarith))
    have d5 : decide ((100000000:ℚ) ≤ a) = false := decide_eq_false (not_le.mpr (by linarith))
    have d6 : decide ((200000000:ℚ) ≤ a) = false := decide_eq_false (not_le.mpr (by linarith))
    have d7 : decide ((400000000:ℚ) ≤ a) = false := decide_eq_false (not_le.mpr (by linarith))
    have d8 : decide ((700000000:ℚ) ≤ a) = false := decide_eq_false (not_le.mpr (by linarith))
    have d9 : decide ((1000000000:ℚ) ≤ a) = false := decide_eq_false (not_le.mpr (by linarith))
    have e1 : bisect_right tierKeys a = 2 := by
      simp [bisect_right, tierKeys_eq, List.takeWhile, d0, d1, d2]
    have e2 : (TIERS.map Prod.fst).filter (fun k => decide (k ≤ a)) = [0, 1000000] := by
      simp [TIERS, List.filter, d0, d1, d2, d3, d4, d5, d6, d7, d8, d9]
    have e3 : tierStep a = 1/10 := by
      unfold tierStep
      rw [if_neg (not_lt.mpr h1), if_pos h2]
    simp only [get_tier, tierSpec, e1, e2, e3]
    exact ⟨by decide, by decide⟩
  rcases lt_or_le a 10000000 with h3 | h3
  · have d0 : decide ((0:ℚ) ≤ a) = true := decide_eq_true h0
    have d1 : decide ((1000000:ℚ) ≤ a) = true := decide_eq_true h1
    have d2 : decide ((5000000:ℚ) ≤ a) = true := decide_eq_true h2
    have d3 : decide ((10000000:ℚ) ≤ a) = false := decide_eq_false (not_le.mpr (by linarith))
    have d4 : decide ((50000000:ℚ) ≤ a) = false := decide_eq_false (not_le.mpr (by linarith))
    have d5 : decide ((100000000:ℚ) ≤ a) = false := decide_eq_false (not_le.mpr (by linarith))
    have d6 : decide ((200000000:ℚ) ≤ a) = false := decide_eq_false (not_le.mpr (by linarith))
    have d7 : decide ((400000000:ℚ) ≤ a) = false := decide_eq_false (not_le.mpr (by linarith))
    have d8 : decide ((700000000:ℚ) ≤ a) = false := decide_eq_false (not_le.mpr (by linarith))
    have d9 : decide ((1000000000:ℚ) ≤ a) = false := decide_eq_false (not_le.mpr (by linarith))
    have e1 : bisect_right tierKeys a = 3 := by
      simp [bisect_right, tierKeys_eq, List.takeWhile, d0, d1, d2, d3]
    have e2 : (TIERS.map Prod.fst).filter (fun k => decide (k ≤ a)) = [0, 1000000, 5000000] := by
      simp [TIERS, List.filter, d0, d1, d2, d3, d4, d5, d6, d7, d8, d9]
    have e3 : tierStep a = 3/20 := by
      unfold tierStep
      rw [if_neg (not_lt.mpr h1), if_neg (not_lt.mpr h2), if_pos h3]
    simp only [get_tier, tierSpec, e1, e2, e3]
    exact ⟨by decide, by decide⟩
  rcases lt_or_le a 50000000 with h4 | h4
  · have d0 : decide ((0:ℚ) ≤ a) = true := decide_eq_true h0
    have d1 : decide ((1000000:ℚ) ≤ a) = true := decide_eq_true h1
    have d2 : decide ((5000000:ℚ) ≤ a) = true := decide_eq_true h2
    have d3 : decide ((10000000:ℚ) ≤ a) = true := decide_eq_true h3
    have d4 : decide ((50000000:ℚ) ≤ a) = false := decide_eq_false (not_le.mpr (by linarith))
    have d5 : decide ((100000000:ℚ) ≤ a) = false := decide_eq_false (not_le.mpr (by linarith))
    have d6 : decide ((200000000:ℚ) ≤ a) = false := decide_eq_false (not_le.mpr (by linarith))
    have d7 : decide ((400000000:ℚ) ≤ a) = false := decide_eq_false (not_le.mpr (by linarith))
    have d8 : decide ((700000000:ℚ) ≤ a) = false := decide_eq_false (not_le.mpr (by linarith))
    have d9 : decide ((1000000000:ℚ) ≤ a) = false := decide_eq_false (not_le.mpr (by linarith))
    have e1 : bisect_right tierKeys a = 4 := by
      simp [bisect_right, tierKeys_eq, List.takeWhile, d0, d1, d2, d3, d4]
    have e2 : (TIERS.map Prod.fst).filter (fun k => decide (k ≤ a)) = [0, 1000000, 5000000, 10000000] := by
      simp [TIERS, List.filter, d0, d1, d2, d3, d4, d5, d6, d7, d8, d9]
    have e3 : tierStep a = 1/5 := by
      unfold tierStep
      rw [if_neg (not_lt.mpr h1), if_neg (not_lt.mpr h2), if_neg (not_lt.mpr h3), if_pos h4]
    simp only [get_tier, tierSpec, e1, e2, e3]
    exact ⟨by decide, by decide⟩
  rcases lt_or_le a 100000000 with h5 | h5
  · have d0 : decide ((0:ℚ) ≤ a) = true := decide_eq_true h0
    have d1 : decide ((1000000:ℚ) ≤ a) = true := decide_eq_true h1
    have d2 : decide ((5000000:ℚ) ≤ a) = true := decide_eq_true h2
    have d3 : decide ((10000000:ℚ) ≤ a) = true := decide_eq_true h3
    have d4 : decide ((50000000:ℚ) ≤ a) = true := decide_eq_true h4
    have d5 : decide ((100000000:ℚ) ≤ a) = false := decide_eq_false (not_le.mpr (by linarith))
    have d6 : decide ((200000000:ℚ) ≤ a) = false := decide_eq_false (not_le.mpr (by linarith))
    have d7 : decide ((400000000:ℚ) ≤ a) = false := decide_eq_false (not_le.mpr (by linarith))
    have d8 : decide ((700000000:ℚ) ≤ a) = false := decide_eq_false (not_le.mpr (by linarith))
    have d9 : decide ((1000000000:ℚ) ≤ a) = false := decide_eq_false (not_le.mpr (by linarith))
    have e1 : bisect_right tierKeys a = 5 := by
      simp [bisect_right, tierKeys_eq, List.takeWhile, d0, d1, d2, d3, d4, d5]
    have e2 : (TIERS.map Prod.fst).filter (fun k => decide (k ≤ a)) = [0, 1000000, 5000000, 10000000, 50000000] := by
      simp [TIERS, List.filter, d0, d1, d2, d3, d4, d5, d6, d7, d8, d9]
    have e3 : tierStep a = 1/4 := by
      unfold tierStep
      rw [if_neg (not_lt.mpr h1), if_neg (not_lt.mpr h2), if_neg (not_lt.mpr h3), if_neg (not_lt.mpr h4), if_pos h5]
    simp only [get_tier, tierSpec, e1, e2, e3]
    exact ⟨by decide, by decide⟩
  rcases lt_or_le a 200000000 with h6 | h6
  · have d0 : decide ((0:ℚ) ≤ a) = true := decide_eq_true h0
    have d1 : decide ((1000000:ℚ) ≤ a) = true := decide_eq_true h1
    have d2 : decide ((5000000:ℚ) ≤ a) = true := decide_eq_true h2
    have d3 : decide ((10000000:ℚ) ≤ a) = true := decide_eq_true h3
    have d4 : decide ((50000000:ℚ) ≤ a) = true := decide_eq_true h4
    have d5 : decide ((100000000:ℚ) ≤ a) = true := decide_eq_true h5
    have d6 : decide ((200000000:ℚ) ≤ a) = false := decide_eq_false (not_le.mpr (by linarith))
    have d7 : decide ((400000000:ℚ) ≤ a) = false := decide_eq_false (not_le.mpr (by linarith))
    have d8 : decide ((700000000:ℚ) ≤ a) = false := decide_eq_false (not_le.mpr (by linarith))
    have d9 : decide ((1000000000:ℚ) ≤ a) = false := decide_eq_false (not_le.mpr (by linarith))
    have e1 : bisect_right tierKeys a = 6 := by
      simp [bisect_right, tierKeys_eq, List.takeWhile, d0, d1, d2, d3, d4, d5, d6]
    have e2 : (TIERS.map Prod.fst).filter (fun k => decide (k ≤ a)) = [0, 1000000, 5000000, 10000000, 50000000, 100000000] := by
      simp [TIERS, List.filter, d0, d1, d2, d3, d4, d5, d6, d7, d8, d9]
    have e3 : tierStep a = 3/10 := by
      unfold tierStep
      rw [if_neg (not_lt.mpr h1), if_neg (not_lt.mpr h2), if_neg (not_lt.mpr h3), if_neg (not_lt.mpr h4), if_neg (not_lt.mpr h5), if_pos h6]
    simp only [get_tier, tierSpec, e1, e2, e3]
    exact ⟨by decide, by decide⟩
  rcases lt_or_le a 400000000 with h7 | h7
  · have d0 : decide ((0:ℚ) ≤ a) = true := decide_eq_true h0
    have d1 : decide ((1000000:ℚ) ≤ a) = true := decide_eq_true h1
    have d2 : decide ((5000000:ℚ) ≤ a) = true := decide_eq_true h2
    have d3 : decide ((10000000:ℚ) ≤ a) = true := decide_eq_true h3
    have d4 : decide ((50000000:ℚ) ≤ a) = true := decide_eq_true h4
    have d5 : decide ((100000000:ℚ) ≤ a) = true := decide_eq_true h5
    have d6 : decide ((200000000:ℚ) ≤ a) = true := decide_eq_true h6
    have d7 : decide ((400000000:ℚ) ≤ a) = false := decide_eq_false (not_le.mpr (by linarith))
    have d8 : decide ((700000000:ℚ) ≤ a) = false := decide_eq_false (not_le.mpr (by linarith))
    have d9 : decide ((1000000000:ℚ) ≤ a) = false := decide_eq_false (not_le.mpr (by linarith))
    have e1 : bisect_right tierKeys a = 7 := by
      simp [bisect_right, tierKeys_eq, List.takeWhile, d0, d1, d2, d3, d4, d5, d6, d7]
    have e2 : (TIERS.map Prod.fst).filter (fun k => decide (k ≤ a)) = [0, 1000000, 5000000, 10000000, 50000000, 100000000, 200000000] := by
      simp [TIERS, List.filter, d0, d1, d2, d3, d4, d5, d6, d7, d8, d9]
    have e3 : tierStep a = 7/20 := by
      unfold tierStep
      rw [if_neg (not_lt.mpr h1), if_neg (not_lt.mpr h2), if_neg (not_lt.mpr h3), if_neg (not_lt.mpr h4), if_neg (not_lt.mpr h5), if_neg (not_lt.mpr h6), if_pos h7]
    simp only [get_tier, tierSpec, e1, e2, e3]
    exact ⟨by decide, by decide⟩
  rcases lt_or_le a 700000000 with h8 | h8
  · have d0 : decide ((0:ℚ) ≤ a) = true := decide_eq_true h0
    have d1 : decide ((1000000:ℚ) ≤ a) = true := decide_eq_true h1
    have d2 : decide ((5000000:ℚ) ≤ a) = true := decide_eq_true h2
    have d3 : decide ((10000000:ℚ) ≤ a) = true := decide_eq_true h3
    have d4 : decide ((50000000:ℚ) ≤ a) = true := decide_eq_true h4
    have d5 : decide ((100000000:ℚ) ≤ a) = true := decide_eq_true h5
    have d6 : decide ((200000000:ℚ) ≤ a) = true := decide_eq_true h6
    have d7 : decide ((400000000:ℚ) ≤ a) = true := decide_eq_true h7
    have d8 : decide ((700000000:ℚ) ≤ a) = false := decide_eq_false (not_le.mpr (by linarith))
    have d9 : decide ((1000000000:ℚ) ≤ a) = false := decide_eq_false (not_le.mpr (by linarith))
    have e1 : bisect_right tierKeys a = 8 := by
      simp [bisect_right, tierKeys_eq, List.takeWhile, d0, d1, d2, d3, d4, d5, d6, d7, d8]
    have e2 : (TIERS.map Prod.fst).filter (fun k => decide (k ≤ a)) = [0, 1000000, 5000000, 10000000, 50000000, 100000000, 200000000, 400000000] := by
      simp [TIERS, List.filter, d0, d1, d2, d3, d4, d5, d6, d7, d8, d9]
    have e3 : tierStep a = 2/5 := by
      unfold tierStep
      rw [if_neg (not_lt.mpr h1), if_neg (not_lt.mpr h2), if_neg (not_lt.mpr h3), if_neg (not_lt.mpr h4), if_neg (not_lt.mpr h5), if_neg (not_lt.mpr h6), if_neg (not_lt.mpr h7), if_pos h8]
    simp only [get_tier, tierSpec, e1, e2, e3]
    exact ⟨by decide, by decide⟩
  rcases lt_or_le a 1000000000 with h9 | h9
  · have d0 : decide ((0:ℚ) ≤ a) = true := decide_eq_true h0
    have d1 : decide ((1000000:ℚ) ≤ a) = true := decide_eq_true h1
    have d2 : decide ((5000000:ℚ) ≤ a) = true := decide_eq_true h2
    have d3 : decide ((10000000:ℚ) ≤ a) = true := decide_eq_true h3
    have d4 : decide ((50000000:ℚ) ≤ a) = true := decide_eq_true h4
    have d5 : decide ((100000000:ℚ) ≤ a) = true := decide_eq_true h5
    have d6 : decide ((200000000:ℚ) ≤ a) = true := decide_eq_true h6
    have d7 : decide ((400000000:ℚ) ≤ a) = true := decide_eq_true h7
    have d8 : decide ((700000000:ℚ) ≤ a) = true := decide_eq_true h8
    have d9 : decide ((1000000000:ℚ) ≤ a) = false := decide_eq_false (not_le.mpr (by linarith))
    have e1 : bisect_right tierKeys a = 9 := by
      simp [bisect_right, tierKeys_eq, List.takeWhile, d0, d1, d2, d3, d4, d5, d6, d7, d8, d9]
    have e2 : (TIERS.map Prod.fst).filter (fun k => decide (k ≤ a)) = [0, 1000000, 5000000, 10000000, 50000000, 100000000, 200000000, 400000000, 700000000] := by
      simp [TIERS, List.filter, d0, d1, d2, d3, d4, d5, d6, d7, d8, d9]
    have e3 : tierStep a = 9/20 := by
      unfold tierStep
      rw [if_neg (not_lt.mpr h1), if_neg (not_lt.mpr h2), if_neg (not_lt.mpr h3), if_neg (not_lt.mpr h4), if_neg (not_lt.mpr h5), if_neg (not_lt.mpr h6), if_neg (not_lt.mpr h7), if_neg (not_lt.mpr h8), if_pos h9]
    simp only [get_tier, tierSpec, e1, e2, e3]
    exact ⟨by decide, by decide⟩
  have d0 : decide ((0:ℚ) ≤ a) = true := decide_eq_true h0
  have d1 : decide ((1000000:ℚ) ≤ a) = true := decide_eq_true h1
  have d2 : decide ((5000000:ℚ) ≤ a) = true := decide_eq_true h2
  have d3 : decide ((10000000:ℚ) ≤ a) = true := decide_eq_true h3
  have d4 : decide ((50000000:ℚ) ≤ a) = true := decide_eq_true h4
  have d5 : decide ((100000000:ℚ) ≤ a) = true := decide_eq_true h5
  have d6 : decide ((200000000:ℚ) ≤ a) = true := decide_eq_true h6
  have d7 : decide ((400000000:ℚ) ≤ a) = true := decide_eq_true h7
  have d8 : decide ((700000000:ℚ) ≤ a) = true := decide_eq_true h8
  have d9 : decide ((1000000000:ℚ) ≤ a) = true := decide_eq_true h9
  have e1 : bisect_right tierKeys a = 10 := by
    simp [bisect_right, tierKeys_eq, List.takeWhile, d0, d1, d2, d3, d4, d5, d6, d7, d8, d9]
  have e2 : (TIERS.map Prod.fst).filter (fun k => decide (k ≤ a)) = [0, 1000000, 5000000, 10000000, 50000000, 100000000, 200000000, 400000000, 700000000, 1000000000] := by
    simp [TIERS, List.filter, d0, d1, d2, d3, d4, d5, d6, d7, d8, d9]
  have e3 : tierStep a = 1/2 := by
    unfold tierStep
    rw [if_neg (not_lt.mpr h1), if_neg (not_lt.mpr h2), if_neg (not_lt.mpr h3), if_neg (not_lt.mpr h4), if_neg (not_lt.mpr h5), if_neg (not_lt.mpr h6), if_neg (not_lt.mpr h7), if_neg (not_lt.mpr h8), if_neg (not_lt.mpr h9)]
  simp only [get_tier, tierSpec, e1, e2, e3]
  exact ⟨by decide, by decide⟩

/-- For a negative amount the bisection inserts at position 0, the Python
index is `-1`, and Python negative indexing selects the LAST sorted key. -/
theorem get_tier_neg (a : ℚ) (h : a < 0) : get_tier a = some (1/2) := by
  have d0 : decide ((0:ℚ) ≤ a) = false := decide_eq_false (not_le.mpr h)
  have e1 : bisect_right tierKeys a = 0 := by
    simp [bisect_right, tierKeys_eq, List.takeWhile, d0]
  simp only [get_tier, e1]
  decide

/-- `get_tier` never raises an uncaught IndexError: it always returns the
rate `tier_of`. -/
theorem get_tier_eq_some (a : ℚ) : get_tier a = some (tier_of a) := by
  rcases le_or_lt 0 a with h | h
  · rw [tier_of, (tier_cases a h).2]
    rfl
  · rw [tier_of, get_tier_neg a h]
    rfl

/-- For a nonnegative amount the returned rate is the ladder step function. -/
theorem tier_of_eq_step (a : ℚ) (h : 0 ≤ a) : tier_of a = tierStep a := by
  have h2 := (tier_cases a h).2
  rw [tier_of, h2]
  rfl

set_option maxHeartbeats 2000000 in
/-- The ladder step function is monotone. -/
theorem tierStep_mono (a b : ℚ) (hab : a ≤ b) : tierStep a ≤ tierStep b := by
  rcases lt_or_le a 1000000 with h1 | h1
  · have ea : tierStep a = 0 := by
      unfold tierStep
      rw [if_pos h1]
    rw [ea]
    unfold tierStep
    split_ifs <;> decide
  rcases lt_or_le a 5000000 with h2 | h2
  · have ea : tierStep a = 1/10 := by
      unfold tierStep
      rw [if_neg (not_lt.mpr h1), if_pos h2]
    have hb1 : ¬ b < 1000000 := not_lt.mpr (le_trans h1 hab)
    rw [ea]
    unfold tierStep
    rw [if_neg hb1]
    split_ifs <;> decide
  rcases lt_or_le a 10000000 with h3 | h3
  · have ea : tierStep a = 3/20 := by
      unfold tierStep
      rw [if_neg (not_lt.mpr h1), if_neg (not_lt.mpr h2), if_pos h3]
    have hb1 : ¬ b < 1000000 := not_lt.mpr (le_trans (le_trans (by decide : (1000000:ℚ) ≤ 5000000) h2) hab)
    have hb2 : ¬ b < 5000000 := not_lt.mpr (le_trans h2 hab)
    rw [ea]
    unfold tierStep
    rw [if_neg hb1, if_neg hb2]
    split_ifs <;> decide
  rcases lt_or_le a 50000000 with h4 | h4
  · have ea : tierStep a = 1/5 := by
      unfold tierStep
      rw [if_neg (not_lt.mpr h1), if_neg (not_lt.mpr h2), if_neg (not_lt.mpr h3), if_pos h4]
    have hb1 : ¬ b < 1000000 := not_lt.mpr (le_trans (le_trans (by decide : (1000000:ℚ) ≤ 10000000) h3) hab)
    have hb2 : ¬ b < 5000000 := not_lt.mpr (le_trans (le_trans (by decide : (5000000:ℚ) ≤ 10000000) h3) hab)
    have hb3 : ¬ b < 10000000 := not_lt.mpr (le_trans h3 hab)
    rw [ea]
    unfold tierStep
    rw [if_neg hb1, if_neg hb2, if_neg hb3]
    split_ifs <;> decide
  rcases lt_or_le a 100000000 with h5 | h5
  · have ea : tierStep a = 1/4 := by
      unfold tierStep
      rw [if_neg (not_lt.mpr h1), if_neg (not_lt.mpr h2), if_neg (not_lt.mpr h3), if_neg (not_lt.mpr h4), if_pos h5]
    have hb1 : ¬ b < 1000000 := not_lt.mpr (le_trans (le_trans (by decide : (1000000:ℚ) ≤ 50000000) h4) hab)
    have hb2 : ¬ b < 5000000 := not_lt.mpr (le_trans (le_trans (by decide : (5000000:ℚ) ≤ 50000000) h4) hab)
    have hb3 : ¬ b < 10000000 := not_lt.mpr (le_trans (le_trans (by decide : (10000000:ℚ) ≤ 50000000) h4) hab)
    have hb4 : ¬ b < 50000000 := not_lt.mpr (le_trans h4 hab)
    rw [ea]
    unfold tierStep
    rw [if_neg hb1, if_neg hb2, if_neg hb3, if_neg hb4]
    split_ifs <;> decide
  rcases lt_or_le a 200000000 with h6 | h6
  · have ea : tierStep a = 3/10 := by
      unfold tierStep
      rw [if_neg (not_lt.mpr h1), if_neg (not_lt.mpr h2), if_neg (not_lt.mpr h3), if_neg (not_lt.mpr h4), if_neg (not_lt.mpr h5), if_pos h6]
    have hb1 : ¬ b < 1000000 := not_lt.mpr (le_trans (le_trans (by decide : (1000000:ℚ) ≤ 100000000) h5) hab)
    have hb2 : ¬ b < 5000000 := not_lt.mpr (le_trans (le_trans (by decide : (5000000:ℚ) ≤ 100000000) h5) hab)
    have hb3 : ¬ b < 10000000 := not_lt.mpr (le_trans (le_trans (by decide : (10000000:ℚ) ≤ 100000000) h5) hab)
    have hb4 : ¬ b < 50000000 := not_lt.mpr (le_trans (le_trans (by decide : (50000000:ℚ) ≤ 100000000) h5) hab)
    have hb5 : ¬ b < 100000000 := not_lt.mpr (le_trans h5 hab)
    rw [ea]
    unfold tierStep
    rw [if_neg hb1, if_neg hb2, if_neg hb3, if_neg hb4, if_neg hb5]
    split_ifs <;> decide
  rcases lt_or_le a 400000000 with h7 | h7
  · have ea : tierStep a = 7/20 := by
      unfold tierStep
      rw [if_neg (not_lt.mpr h1), if_neg (not_lt.mpr h2), if_neg (not_lt.mpr h3), if_neg (not_lt.mpr h4), if_neg (not_lt.mpr h5), if_neg (not_lt.mpr h6), if_pos h7]
    have hb1 : ¬ b < 1000000 := not_lt.mpr (le_trans (le_trans (by decide : (1000000:ℚ) ≤ 200000000) h6) hab)
    have hb2 : ¬ b < 5000000 := not_lt.mpr (le_trans (le_trans (by decide : (5000000:ℚ) ≤ 200000000) h6) hab)
    have hb3 : ¬ b < 10000000 := not_lt.mpr (le_trans (le_trans (by decide : (10000000:ℚ) ≤ 200000000) h6) hab)
    have hb4 : ¬ b < 50000000 := not_lt.mpr (le_trans (le_trans (by decide : (50000000:ℚ) ≤ 200000000) h6) hab)
    have hb5 : ¬ b < 100000000 := not_lt.mpr (le_trans (le_trans (by decide : (100000000:ℚ) ≤ 200000000) h6) hab)
    have hb6 : ¬ b < 200000000 := not_lt.mpr (le_trans h6 hab)
    rw [ea]
    unfold tierStep
    rw [if_neg hb1, if_neg hb2, if_neg hb3, if_neg hb4, if_neg hb5, if_neg hb6]
    split_ifs <;> decide
  rcases lt_or_le a 700000000 with h8 | h8
  · have ea : tierStep a = 2/5 := by
      unfold tierStep
      rw [if_neg (not_lt.mpr h1), if_neg (not_lt.mpr h2), if_neg (not_lt.mpr h3), if_neg (not_lt.mpr h4), if_neg (not_lt.mpr h5), if_neg (not_lt.mpr h6), if_neg (not_lt.mpr h7), if_pos h8]
    have hb1 : ¬ b < 1000000 := not_lt.mpr (le_trans (le_trans (by decide : (1000000:ℚ) ≤ 400000000) h7) hab)
    have hb2 : ¬ b < 5000000 := not_lt.mpr (le_trans (le_trans (by decide : (5000000:ℚ) ≤ 400000000) h7) hab)
    have hb3 : ¬ b < 10000000 := not_lt.mpr (le_trans (le_trans (by decide : (10000000:ℚ) ≤ 400000000) h7) hab)
    have hb4 : ¬ b < 50000000 := not_lt.mpr (le_trans (le_trans (by decide : (50000000:ℚ) ≤ 400000000) h7) hab)
    have hb5 : ¬ b < 100000000 := not_lt.mpr (le_trans (le_trans (by decide : (100000000:ℚ) ≤ 400000000) h7) hab)
    have hb6 : ¬ b < 200000000 := not_lt.mpr (le_trans (le_trans (by decide : (200000000:ℚ) ≤ 400000000) h7) hab)
    have hb7 : ¬ b < 400000000 := not_lt.mpr (le_trans h7 hab)
    rw [ea]
    unfold tierStep
    rw [if_neg hb1, if_neg hb2, if_neg hb3, if_neg hb4, if_neg hb5, if_neg hb6, if_neg hb7]
    split_ifs <;> decide
  rcases lt_or_le a 1000000000 with h9 | h9
  · have ea : tierStep a = 9/20 := by
      unfold tierStep
      rw [if_neg (not_lt.mpr h1), if_neg (not_lt.mpr h2), if_neg (not_lt.mpr h3), if_neg (not_lt.mpr h4), if_neg (not_lt.mpr h5), if_neg (not_lt.mpr h6), if_neg (not_lt.mpr h7), if_neg (not_lt.mpr h8), if_pos h9]
    have hb1 : ¬ b < 1000000 := not_lt.mpr (le_trans (le_trans (by decide : (1000000:ℚ) ≤ 700000000) h8) hab)
    have hb2 : ¬ b < 5000000 := not_lt.mpr (le_trans (le_trans (by decide : (5000000:ℚ) ≤ 700000000) h8) hab)
    have hb3 : ¬ b < 10000000 := not_lt.mpr (le_trans (le_trans (by decide : (10000000:ℚ) ≤ 700000000) h8) hab)
    have hb4 : ¬ b < 50000000 := not_lt.mpr (le_trans (le_trans (by decide : (50000000:ℚ) ≤ 700000000) h8) hab)
    have hb5 : ¬ b < 100000000 := not_lt.mpr (le_trans (le_trans (by decide : (100000000:ℚ) ≤ 700000000) h8) hab)
    have hb6 : ¬ b < 200000000 := not_lt.mpr (le_trans (le_trans (by decide : (200000000:ℚ) ≤ 700000000) h8) hab)
    have hb7 : ¬ b < 400000000 := not_lt.mpr (le_trans (le_trans (by decide : (400000000:ℚ) ≤ 700000000) h8) hab)
    have hb8 : ¬ b < 700000000 := not_lt.mpr (le_trans h8 hab)
    rw [ea]
    unfold tierStep
    rw [if_neg hb1, if_neg hb2, if_neg hb3, if_neg hb4, if_neg hb5, if_neg hb6, if_neg hb7, if_neg hb8]
    split_ifs <;> decide
  have ea : tierStep a = 1/2 := by
    unfold tierStep
    rw [if_neg (not_lt.mpr h1), if_neg (not_lt.mpr h2), if_neg (not_lt.mpr h3), if_neg (not_lt.mpr h4), if_neg (not_lt.mpr h5), if_neg (not_lt.mpr h6), if_neg (not_lt.mpr h7), if_neg (not_lt.mpr h8), if_neg (not_lt.mpr h9)]
  have hb1 : ¬ b < 1000000 := not_lt.mpr (le_trans (le_trans (by decide : (1000000:ℚ) ≤ 1000000000) h9) hab)
  have hb2 : ¬ b < 5000000 := not_lt.mpr (le_trans (le_trans (by decide : (5000000:ℚ) ≤ 1000000000) h9) hab)
  have hb3 : ¬ b < 10000000 := not_lt.mpr (le_trans (le_trans (by decide : (10000000:ℚ) ≤ 1000000000) h9) hab)
  have hb4 : ¬ b < 50000000 := not_lt.mpr (le_trans (le_trans (by decide : (50000000:ℚ) ≤ 1000000000) h9) hab)
  have hb5 : ¬ b < 100000000 := not_lt.mpr (le_trans (le_trans (by decide : (100000000:ℚ) ≤ 1000000000) h9) hab)
  have hb6 : ¬ b < 200000000 := not_lt.mpr (le_trans (le_trans (by decide : (200000000:ℚ) ≤ 1000000000) h9) hab)
  have hb7 : ¬ b < 400000000 := not_lt.mpr (le_trans (le_trans (by decide : (400000000:ℚ) ≤ 1000000000) h9) hab)
  have hb8 : ¬ b < 700000000 := not_lt.mpr (le_trans (le_trans (by decide : (700000000:ℚ) ≤ 1000000000) h9) hab)
  have hb9 : ¬ b < 1000000000 := not_lt.mpr (le_trans h9 hab)
  rw [ea]
  unfold tierStep
  rw [if_neg hb1, if_neg hb2, if_neg hb3, if_neg hb4, if_neg hb5, if_neg hb6, if_neg hb7, if_neg hb8, if_neg hb9]

/-- C3: for every nonnegative amount, `get_tier` returns the rate of the
greatest threshold less than or equal to the amount (closed-left intervals,
rate at threshold 0 below the smallest positive threshold); in particular
`get_tier 1000000 = 0.10` and `get_tier 999999 = 0`. -/
theorem c3_get_tier_greatest_threshold :
    (∀ a : ℚ, 0 ≤ a → get_tier a = tierSpec a) ∧
    get_tier 1000000 = some (1/10) ∧ get_tier 999999 = some 0 := by
  refine ⟨fun a ha => (tier_cases a ha).1, by decide, by decide⟩

/-- C8: `get_tier` is monotone over the configured table: for all amounts
`0 ≤ a ≤ b`, the rate at `a` is at most the rate at `b`. -/
theorem c8_get_tier_monotone (a b : ℚ) (ha : 0 ≤ a) (hab : a ≤ b) :
    tier_of a ≤ tier_of b := by
  rw [tier_of_eq_step a ha, tier_of_eq_step b (le_trans ha hab)]
  exact tierStep_mono a b hab

/-- C8 witness: the monotonicity theorem applied at `0 ≤ 1000000000`. -/
theorem c8_get_tier_monotone_witness : tier_of 0 ≤ tier_of 1000000000 :=
  c8_get_tier_monotone 0 1000000000 (by norm_num) (by norm_num)

/-- C10: for every negative amount, `get_tier` returns `0.5` — the rate of
the largest threshold of the table (index `-1` selects the last sorted key)
— and not the threshold-0 rate. -/
theorem c10_negative_amount_maximal_rate (a : ℚ) (h : a < 0) :
    get_tier a = some (1/2) ∧ TIERS.lookup 1000000000 = some (1/2) ∧
    get_tier a ≠ TIERS.lookup 0 := by
  refine ⟨get_tier_neg a h, by decide, ?_⟩
  rw [get_tier_neg a h]
  decide

/-- C10 witness: the negative-amount theorem applied at `-1`. -/
theorem c10_negative_amount_maximal_rate_witness :
    get_tier (-1) = some (1/2) ∧ TIERS.lookup 1000000000 = some (1/2) ∧
    get_tier (-1) ≠ TIERS.lookup 0 :=
  c10_negative_amount_maximal_rate (-1) (by norm_num)

/-- The pivot's block index is strictly ascending. -/
theorem blockIndex_sorted (rows : List SnapRow) :
    (blockIndex rows).Pairwise (· < ·) := by
  have hs : (blockIndex rows).Pairwise (fun a b : Nat => a ≤ b) :=
    List.sorted_insertionSort _ _
  have hn : (blockIndex rows).Nodup :=
    (List.perm_insertionSort _ _).symm.nodup (List.nodup_dedup _)
  exact (hs.and hn).imp (fun h => lt_of_le_of_ne h.1 h.2)

/-- Every row's block occurs in the pivot's block index. -/
theorem mem_blockIndex {rows : List SnapRow} {r : SnapRow} (h : r ∈ rows) :
    r.block ∈ blockIndex rows := by
  unfold blockIndex
  rw [(List.perm_insertionSort _ _).mem_iff, List.mem_dedup]
  exact List.mem_map_of_mem _ h

theorem ffillList_lookup (f : Nat → Option ℚ) :
    ∀ (bs : List Nat), bs.Pairwise (· < ·) → ∀ (prev : Option ℚ) (b : Nat), b ∈ bs →
    (ffillList f bs prev).lookup b =
      some (lastSome prev ((bs.filter (fun x => decide (x ≤ b))).map f)) := by
  intro bs
  induction bs with
  | nil => intro _ prev b hb; cases hb
  | cons b0 rest ih =>
    intro hp prev b hb
    have hhead : ∀ x ∈ rest, b0 < x := fun x hx => List.rel_of_pairwise_cons hp hx
    have hrest : rest.Pairwise (· < ·) := hp.of_cons
    by_cases hbb : b = b0
    · subst hbb
      have hfalse : rest.filter (fun x => decide (x ≤ b)) = [] := by
        rw [List.filter_eq_nil_iff]
        intro x hx
        simpa using Nat.not_le.mpr (hhead x hx)
      have hcond : decide (b ≤ b) = true := by simp
      simp only [ffillList, List.lookup, beq_self_eq_true, List.filter_cons, hcond,
        hfalse, if_pos trivial]
      rfl
    · have hbmem : b ∈ rest := by
        rcases List.mem_cons.mp hb with h | h
        · exact absurd h hbb
        · exact h
      have hlt : b0 < b := hhead b hbmem
      have hcond : decide (b0 ≤ b) = true := by
        simp [Nat.le_of_lt hlt]
      have hne : (b == b0) = false := beq_eq_false_iff_ne.mpr hbb
      simp only [ffillList, List.lookup, hne, List.filter_cons, hcond, if_pos trivial,
        List.map_cons]
      rw [ih hrest _ b hbmem]
      rfl

theorem lookup_map_self {β : Type} (g : Nat → β) :
    ∀ (bs : List Nat) (b : Nat), b ∈ bs →
    (bs.map (fun x => (x, g x))).lookup b = some (g b) := by
  intro bs
  induction bs with
  | nil => intro b h; cases h
  | cons x t ih =>
    intro b hb
    by_cases hxb : b = x
    · subst hxb
      simp [List.lookup]
    · have hne : (b == x) = false := beq_eq_false_iff_ne.mpr hxb
      have hbt : b ∈ t := by
        rcases List.mem_cons.mp hb with h | h
        · exact absurd h hxb
        · exact h
      simp only [List.map_cons, List.lookup, hne]
      exact ih b hbt

theorem getLastq_cons {α : Type} (a : α) (l : List α) :
    (a :: l).getLast? = l.getLast?.or (some a) := by
  cases l with
  | nil => rfl
  | cons b t =>
    rw [List.getLast?_cons_cons]
    have : (b :: t).getLast?.isSome := by
      rw [List.getLast?_isSome]
      exact List.cons_ne_nil b t
    obtain ⟨v, hv⟩ := Option.isSome_iff_exists.mp this
    rw [hv]
    rfl

theorem lastSome_cons (prev o : Option ℚ) (l : List (Option ℚ)) :
    lastSome prev (o :: l) = lastSome (o.or prev) l := by
  cases o <;> rfl

theorem lastSome_map_eq (f : Nat → Option ℚ) :
    ∀ (l : List Nat) (prev : Option ℚ),
    lastSome prev (l.map f) = ((l.filterMap f).getLast?).or prev := by
  intro l
  induction l with
  | nil => intro prev; rfl
  | cons x t ih =>
    intro prev
    rw [List.map_cons, lastSome_cons, ih]
    cases hfx : f x with
    | none =>
      rw [List.filterMap_cons_none hfx]
      rfl
    | some v =>
      rw [List.filterMap_cons_some hfx, getLastq_cons, Option.or_assoc]

/-- The code series agrees with the spec description: at every block of the
pivot index, the cumulative total balance is the sum over the vaults of the
cell at the greatest observed block at or before that block. -/
theorem totalBalances_lookup (rows : List SnapRow) (b : Nat)
    (hb : b ∈ blockIndex rows) :
    (totalBalances rows).lookup b = some (cumBalance rows b) := by
  have hcol : ∀ v : String,
      ((((ffillList (fun x => cellSum rows x v) (blockIndex rows) none).lookup
        b).getD none).getD 0) = (specFilledValue rows v b).getD 0 := by
    intro v
    rw [ffillList_lookup (fun x => cellSum rows x v) (blockIndex rows)
      (blockIndex_sorted rows) none b hb]
    rw [Option.getD_some, lastSome_map_eq, Option.or_none]
    rfl
  simp only [totalBalances]
  rw [lookup_map_self _ _ _ hb]
  congr 1
  unfold cumBalance
  congr 1
  exact List.map_congr_left (fun v _ => hcol v)

/-- C1: for every partner, the cumulative total-balance series pivots
`balance_usd` by (block, vault), forward-fills each vault column using only
observations at or before each block (never later ones), and sums across
vaults per block; in the example scenario (vault X observed at blocks 1 and
5 with 100 and 200, vault Y first observed at block 5 with 50) the
forward-filled cumulative balance at block 3 is 100 and at block 5 is
250. -/
theorem c1_forward_fill_cumulative :
    (∀ (rows : List SnapRow) (b : Nat), b ∈ blockIndex rows →
      (totalBalances rows).lookup b = some (cumBalance rows b)) ∧
    cumBalance c1Rows 3 = 100 ∧ cumBalance c1Rows 5 = 250 ∧
    (totalBalances c1Rows).lookup 5 = some 250 :=
  ⟨fun rows b hb => totalBalances_lookup rows b hb, by decide, by decide,
    by decide⟩

/-- Every ledger row of `addTiers` carries the tier of its own block's entry
of the cumulative series, the payout `payout_base * tier`, and a snapshot
row of the input. -/
theorem addTiers_fields (rows : List SnapRow) :
    ∀ r ∈ addTiers rows,
      r.tier = tier_of (((totalBalances rows).lookup r.block).getD 0) ∧
      r.payout = r.payout_base * r.tier ∧ r.toSnapRow ∈ rows := by
  intro r hr
  rcases List.mem_map.mp hr with ⟨r0, hr0, rfl⟩
  exact ⟨rfl, rfl, hr0⟩

/-- C2: in every partner ledger, rows from different wrappers at the same
block are kept as separate rows (the ledger projects back onto the
concatenated snapshot rows one to one), every row's tier is `get_tier` of
the combined forward-filled cumulative balance of the partner at the row's
block, every row's payout is `payout_base * tier`, and all rows sharing a
block share a tier. -/
theorem c2_per_block_tier (p : PartnerData)
    (out : List LedgerRow × List PayoutRow)
    (hok : processPartner p = .ok out) (rows : List SnapRow)
    (hrows : snapshotAll p.wrappers = .ok rows) :
    (out.1.map (fun r => r.toSnapRow) = rows) ∧
    (∀ r ∈ out.1, r.tier = tier_of (cumBalance rows r.block) ∧
      r.payout = r.payout_base * r.tier) ∧
    (∀ r ∈ out.1, ∀ s ∈ out.1, r.block = s.block → r.tier = s.tier) := by
  unfold processPartner at hok
  rw [hrows] at hok
  injection hok with hout
  subst hout
  refine ⟨?_, ?_, ?_⟩
  · unfold addTiers
    rw [List.map_map]
    exact (List.map_congr_left fun r _ => rfl).trans (List.map_id rows)
  · intro r hr
    obtain ⟨ht, hp, hs⟩ := addTiers_fields rows r hr
    refine ⟨?_, hp⟩
    rw [ht, totalBalances_lookup rows r.block (mem_blockIndex hs)]
    rfl
  · intro r hr s hs hblock
    rw [(addTiers_fields rows r hr).1, (addTiers_fields rows s hs).1, hblock]

/-- C2 witness: the theorem applied to the concrete two-wrapper partner. -/
theorem c2_per_block_tier_witness :
    (c2Out.1.map (fun r => r.toSnapRow) = c2Rows) ∧
    (∀ r ∈ c2Out.1, r.tier = tier_of (cumBalance c2Rows r.block) ∧
      r.payout = r.payout_base * r.tier) ∧
    (∀ r ∈ c2Out.1, ∀ s ∈ c2Out.1, r.block = s.block → r.tier = s.tier) :=
  c2_per_block_tier c2Partner c2Out (by rfl) c2Rows (by rfl)

/-- A partner with any wrapper lacking fee events raises the `zip` unpack
`ValueError` while snapshotting. -/
theorem snapshotAll_empty_error (ws : List WrapperData)
    (h : ∃ w ∈ ws, w.fees = []) : snapshotAll ws = .error emptyFeesMsg := by
  induction ws with
  | nil =>
    obtain ⟨w, hw, -⟩ := h
    cases hw
  | cons w0 rest ih =>
    obtain ⟨w, hw, hfees⟩ := h
    rcases List.mem_cons.mp hw with rfl | hmem
    · simp [snapshotAll, hfees]
    · by_cases h0 : w0.fees.isEmpty
      · simp [snapshotAll, h0]
      · have hrec := ih ⟨w, hmem, hfees⟩
        simp [snapshotAll, h0, hrec]

/-- C4 counterexample: with an empty wrapper next to a normal sibling,
`Partner.process` raises the unpack `ValueError` - the sibling is not
aggregated, contradicting the claim that nothing is raised. -/
theorem c4_counterexample :
    processPartner c4Partner = .error emptyFeesMsg ∧
    c4GoodW ∈ c4Partner.wrappers ∧ c4GoodW.fees ≠ [] := by
  refine ⟨rfl, ?_, by decide⟩
  exact List.mem_cons_of_mem _ (List.mem_cons_self _ _)

/-- C4 as amended: if any wrapper of a partner has zero fee events,
`Partner.process` raises the `ValueError` from unpacking the empty fee
mapping, aborting the whole partner including its sibling wrappers. -/
theorem c4_empty_wrapper_raises (p : PartnerData) (w : WrapperData)
    (hw : w ∈ p.wrappers) (hfees : w.fees = []) :
    processPartner p = .error emptyFeesMsg := by
  unfold processPartner
  rw [snapshotAll_empty_error p.wrappers ⟨w, hw, hfees⟩]

/-- C4 witness: the amended theorem applied to the one-wrapper partner. -/
theorem c4_empty_wrapper_raises_witness :
    processPartner c4wPartner = .error emptyFeesMsg :=
  c4_empty_wrapper_raises c4wPartner c4EmptyW (List.mem_cons_self _ _) rfl

/-- A zero-supply share is never finite. -/
theorem shareF_zero_not_finite (b : ℚ) : (shareF b 0).isFinite = false := by
  simp only [shareF, FVal.div]
  rw [if_pos trivial]
  split_ifs <;> rfl

/-- Multiplying a non-finite float by a finite one stays non-finite. -/
theorem mul_fin_not_finite (x : FVal) (q : ℚ) (hx : x.isFinite = false) :
    (x.mul (.fin q)).isFinite = false := by
  cases x with
  | nan => rfl
  | posInf =>
    simp only [FVal.mul]
    split_ifs <;> rfl
  | negInf =>
    simp only [FVal.mul]
    split_ifs <;> rfl
  | fin v => simp [FVal.isFinite] at hx

/-- C5 counterexample: at `balance = 5`, `total_supply = 0`, the share is
positive infinity, not NaN as the claim states. -/
theorem c5_counterexample :
    shareF 5 0 = FVal.posInf ∧ FVal.posInf ≠ FVal.nan := by
  refine ⟨?_, by decide⟩
  norm_num [shareF, FVal.div]

/-- C5 as amended: when `total_supply` is zero, computing the share raises
no exception; the share is the non-finite value NaN when the balance is also
zero and a signed infinity otherwise, and `payout_base` is likewise
non-finite - the anomaly propagates instead of being coerced to zero. -/
theorem c5_zero_supply_nonfinite (b fee : ℚ) :
    shareF b 0 = (if b = 0 then FVal.nan else
      if 0 < b then FVal.posInf else FVal.negInf) ∧
    (shareF b 0).isFinite = false ∧
    (payoutBaseF b 0 fee).isFinite = false := by
  refine ⟨?_, shareF_zero_not_finite b, ?_⟩
  · simp only [shareF, FVal.div]
    rw [if_pos trivial]
  · simp only [payoutBaseF]
    exact mul_fin_not_finite _ _ (mul_fin_not_finite _ _ (shareF_zero_not_finite b))

/-- C9: every snapshot row satisfies `share = balance / total_supply` and
`payout_base = share * protocol_fee * 0.65`; when one wrapper holds the
whole supply (`balance = total_supply`, supply nonzero), `share = 1` and
`payout_base = protocol_fee * 0.65`. -/
theorem c9_share_payout_base (w : WrapperData) (r : SnapRow)
    (hr : r ∈ buildWrapper w) :
    r.share = r.balance / r.total_supply ∧
    r.payout_base = r.share * r.protocol_fee * (13/20) ∧
    (r.total_supply ≠ 0 → r.balance = r.total_supply →
      r.share = 1 ∧ r.payout_base = r.protocol_fee * (13/20)) := by
  rcases List.mem_map.mp hr with ⟨bf, -, rfl⟩
  refine ⟨rfl, rfl, fun hts hbal => ?_⟩
  have hsh : w.balanceAt bf.1 / w.supplyAt bf.1 = 1 := by
    have hb : w.balanceAt bf.1 = w.supplyAt bf.1 := hbal
    rw [hb]
    exact div_self hts
  refine ⟨hsh, ?_⟩
  show w.balanceAt bf.1 / w.supplyAt bf.1 * bf.2 * (13/20) = bf.2 * (13/20)
  rw [hsh, one_mul]

/-- C9 witness: the theorem applied to the fully-holding wrapper `c9W`. -/
theorem c9_share_payout_base_witness :
    c9Row.share = c9Row.balance / c9Row.total_supply ∧
    c9Row.payout_base = c9Row.share * c9Row.protocol_fee * (13/20) ∧
    (c9Row.total_supply ≠ 0 → c9Row.balance = c9Row.total_supply →
      c9Row.share = 1 ∧ c9Row.payout_base = c9Row.protocol_fee * (13/20)) :=
  c9_share_payout_base c9W c9Row (by decide)

/-- Folding `min` only descends from its initial accumulator. -/
theorem foldl_min_le_self : ∀ (l : List Nat) (a : Nat), l.foldl min a ≤ a := by
  intro l
  induction l with
  | nil => intro a; exact le_refl a
  | cons x t ih => intro a; exact le_trans (ih (min a x)) (min_le_left a x)

/-- Folding `min` is below every member. -/
theorem foldl_min_le_mem :
    ∀ (l : List Nat) (a x : Nat), x ∈ l → l.foldl min a ≤ x := by
  intro l
  induction l with
  | nil => intro a x hx; cases hx
  | cons y t ih =>
    intro a x hx
    rcases List.mem_cons.mp hx with rfl | hmem
    · exact le_trans (foldl_min_le_self t (min a x)) (min_le_right a x)
    · exact ih (min a y) x hmem

/-- Folding `max` only ascends from its initial accumulator. -/
theorem le_foldl_max_self : ∀ (l : List Nat) (a : Nat), a ≤ l.foldl max a := by
  intro l
  induction l with
  | nil => intro a; exact le_refl a
  | cons x t ih => intro a; exact le_trans (le_max_left a x) (ih (max a x))

/-- Folding `max` is above every member. -/
theorem le_foldl_max_mem :
    ∀ (l : List Nat) (a x : Nat), x ∈ l → x ≤ l.foldl max a := by
  intro l
  induction l with
  | nil => intro a x hx; cases hx
  | cons y t ih =>
    intro a x hx
    rcases List.mem_cons.mp hx with rfl | hmem
    · exact le_trans (le_max_right a x) (le_foldl_max_self t (max a x))
    · exact ih (max a y) x hmem

/-- Every entry of a list lies between the bounds `monthSpan` reports. -/
theorem monthSpan_bounds (ms : List Nat) (lo hi : Nat)
    (h : monthSpan ms = some (lo, hi)) : ∀ x ∈ ms, lo ≤ x ∧ x ≤ hi := by
  cases ms with
  | nil => simp [monthSpan] at h
  | cons m rest =>
    simp only [monthSpan, Option.some.injEq, Prod.mk.injEq] at h
    obtain ⟨h1, h2⟩ := h
    subst h1
    subst h2
    intro x hx
    rcases List.mem_cons.mp hx with rfl | hmem
    · exact ⟨foldl_min_le_self rest x, le_foldl_max_self rest x⟩
    · exact ⟨foldl_min_le_mem rest m x hmem, le_foldl_max_mem rest m x hmem⟩

/-- Summing an indicator over a list the key does not occur in gives 0. -/
theorem sum_ite_key_zero {κ : Type} [DecidableEq κ] (c : ℚ) (k0 : κ) :
    ∀ (K : List κ), k0 ∉ K →
    (K.map (fun k => if k0 = k then c else 0)).sum = 0 := by
  intro K
  induction K with
  | nil => intro _; rfl
  | cons k1 t ih =>
    intro h
    simp only [List.mem_cons, not_or] at h
    obtain ⟨hne, hnt⟩ := h
    rw [List.map_cons, List.sum_cons, if_neg hne, ih hnt, add_zero]

/-- Summing an indicator over a duplicate-free list holding the key gives
the indicated value once. -/
theorem sum_ite_key {κ : Type} [DecidableEq κ] (c : ℚ) (k0 : κ) :
    ∀ (K : List κ), K.Nodup → k0 ∈ K →
    (K.map (fun k => if k0 = k then c else 0)).sum = c := by
  intro K
  induction K with
  | nil => intro _ h; cases h
  | cons k1 t ih =>
    intro hK hk
    rcases List.mem_cons.mp hk with rfl | hmem
    · rw [List.map_cons, List.sum_cons, if_pos rfl,
        sum_ite_key_zero c k0 t (List.nodup_cons.mp hK).1, add_zero]
    · have hne : k0 ≠ k1 := by
        rintro rfl
        exact (List.nodup_cons.mp hK).1 hmem
      rw [List.map_cons, List.sum_cons, if_neg hne,
        ih (List.nodup_cons.mp hK).2 hmem, zero_add]

/-- Double counting: grouping a list by a key ranging over a duplicate-free
key list and summing the group sums gives the total sum. -/
theorem sum_filter_partition {α κ : Type} [DecidableEq κ] (val : α → ℚ)
    (key : α → κ) :
    ∀ (L : List α) (K : List κ), K.Nodup → (∀ a ∈ L, key a ∈ K) →
    (K.map (fun k => ((L.filter (fun a => decide (key a = k))).map val).sum)).sum
      = (L.map val).sum := by
  intro L
  induction L with
  | nil =>
    intro K _ _
    simp
  | cons a L ih =>
    intro K hK hmem
    have hterm : ∀ k ∈ K,
        (((a :: L).filter (fun x => decide (key x = k))).map val).sum
          = (if key a = k then val a else 0)
            + ((L.filter (fun x => decide (key x = k))).map val).sum := by
      intro k _
      by_cases h : key a = k
      · simp [List.filter_cons, h]
      · simp [List.filter_cons, h]
    rw [List.map_congr_left hterm, List.sum_map_add,
      ih K hK (fun x hx => hmem x (List.mem_cons_of_mem a hx)),
      sum_ite_key (val a) (key a) K hK (hmem a (List.mem_cons_self a L)),
      List.map_cons, List.sum_cons]

/-- The stacked monthly cells of the export sum to the ledger payout total,
whenever the key lists cover the ledger without duplicates. -/
theorem stack_sum (ledger : List LedgerRow) (months : List Nat)
    (vs : List String) (hm : months.Nodup) (hv : vs.Nodup)
    (hmem : ∀ r ∈ ledger, monthIdx r.timestamp ∈ months ∧ r.vault ∈ vs) :
    ((months ×ˢ vs).map (fun mv => ((ledger.filter (fun r =>
        decide (monthIdx r.timestamp = mv.1 ∧ r.vault = mv.2))).map
          (fun r => r.payout)).sum)).sum
      = (ledger.map (fun r => r.payout)).sum := by
  have hfilter : ∀ mv : Nat × String,
      ledger.filter (fun r =>
        decide (monthIdx r.timestamp = mv.1 ∧ r.vault = mv.2))
        = ledger.filter (fun r =>
          decide ((monthIdx r.timestamp, r.vault) = mv)) := by
    intro mv
    obtain ⟨m, v⟩ := mv
    apply List.filter_congr
    intro r _
    apply decide_eq_decide.mpr
    rw [Prod.mk.injEq]
  have hmaps :
      (months ×ˢ vs).map (fun mv => ((ledger.filter (fun r =>
          decide (monthIdx r.timestamp = mv.1 ∧ r.vault = mv.2))).map
            (fun r => r.payout)).sum)
        = (months ×ˢ vs).map (fun k => ((ledger.filter (fun r =>
          decide ((monthIdx r.timestamp, r.vault) = k))).map
            (fun r => r.payout)).sum) :=
    List.map_congr_left (fun mv _ => by rw [hfilter mv])
  rw [hmaps]
  exact sum_filter_partition (fun r => r.payout)
    (fun r => (monthIdx r.timestamp, r.vault)) ledger (months ×ˢ vs)
    (hm.product hv)
    (fun r hr => List.mem_product.mpr ⟨(hmem r hr).1, (hmem r hr).2⟩)

/-- Conservation through the export: the stacked monthly amounts of
`export_payouts` sum to the per-event payouts of the ledger. -/
theorem exportPayouts_conservation (p : PartnerData) (ledger : List LedgerRow) :
    ((exportPayouts p ledger).map (fun r => r.amount)).sum
      = (ledger.map (fun r => r.payout)).sum := by
  unfold exportPayouts
  cases hms : monthSpan (ledger.map (fun r => monthIdx r.timestamp)) with
  | none =>
    have hnil : ledger = [] := by
      cases hl : ledger with
      | nil => rfl
      | cons a l =>
        rw [hl] at hms
        simp [monthSpan] at hms
    subst hnil
    rfl
  | some lohi =>
    obtain ⟨lo, hi⟩ := lohi
    rw [List.map_map]
    exact stack_sum ledger (List.range' lo (hi + 1 - lo))
      ((ledger.map (fun r => r.vault)).dedup)
      (List.nodup_range' _ _) (List.nodup_dedup _)
      (fun r hr => by
        constructor
        · rw [List.mem_range'_1]
          have hb := monthSpan_bounds _ lo hi hms (monthIdx r.timestamp)
            (List.mem_map_of_mem _ hr)
          omega
        · exact List.mem_dedup.mpr (List.mem_map_of_mem _ hr))

/-- C7: for every partner that processes, the sum of all exported monthly
payout amounts equals the sum of all per-event payouts of the ledger
(conservation under month-end regrouping; exact here, over rationals). -/
theorem c7_export_conservation (p : PartnerData)
    (out : List LedgerRow × List PayoutRow)
    (hok : processPartner p = .ok out) :
    (out.2.map (fun r => r.amount)).sum = (out.1.map (fun r => r.payout)).sum := by
  unfold processPartner at hok
  cases hsnap : snapshotAll p.wrappers with
  | error e =>
    rw [hsnap] at hok
    cases hok
  | ok rows =>
    rw [hsnap] at hok
    injection hok with hout
    subst hout
    exact exportPayouts_conservation p (addTiers rows)

/-- C7 witness: conservation at the concrete two-wrapper partner. -/
theorem c7_export_conservation_witness :
    (c2Out.2.map (fun r => r.amount)).sum = (c2Out.1.map (fun r => r.payout)).sum :=
  c7_export_conservation c2Partner c2Out (by rfl)

/-- The export rows are pairwise distinct on the (month, token) key. -/
theorem exportPayouts_unique_keys (p : PartnerData) (ledger : List LedgerRow) :
    (exportPayouts p ledger).Pairwise
      (fun a b => a.timestamp ≠ b.timestamp ∨ a.token ≠ b.token) := by
  unfold exportPayouts
  cases hms : monthSpan (ledger.map (fun r => monthIdx r.timestamp)) with
  | none => exact List.Pairwise.nil
  | some lohi =>
    obtain ⟨lo, hi⟩ := lohi
    rw [List.pairwise_map]
    have hnd : (List.range' lo (hi + 1 - lo)
        ×ˢ (ledger.map (fun r => r.vault)).dedup).Nodup :=
      (List.nodup_range' _ _).product (List.nodup_dedup _)
    refine hnd.imp ?_
    intro mv1 mv2 hne
    by_cases h1 : mv1.1 = mv2.1
    · right
      intro h2
      exact hne (Prod.ext h1 h2)
    · left
      exact h1

/-- C6 as amended: the exported payout rows of a processed partner are
uniquely keyed by (month bucket, token) - no two rows share that key.
(A row may carry amount 0; the counterexample shows one.) -/
theorem c6_unique_monthly_keys (p : PartnerData)
    (out : List LedgerRow × List PayoutRow)
    (hok : processPartner p = .ok out) :
    out.2.Pairwise (fun a b => a.timestamp ≠ b.timestamp ∨ a.token ≠ b.token) := by
  unfold processPartner at hok
  cases hsnap : snapshotAll p.wrappers with
  | error e =>
    rw [hsnap] at hok
    cases hok
  | ok rows =>
    rw [hsnap] at hok
    injection hok with hout
    subst hout
    exact exportPayouts_unique_keys p (addTiers rows)

/-- C6 witness: uniqueness at the concrete partner `c6Partner`. -/
theorem c6_unique_monthly_keys_witness :
    c6Out.2.Pairwise
      (fun a b => a.timestamp ≠ b.timestamp ∨ a.token ≠ b.token) :=
  c6_unique_monthly_keys c6Partner c6Out (by rfl)

/-- C6 counterexample: `c6Partner` has one fee event with cumulative balance
50 USD, so the tier and hence every payout is 0, yet the export still emits
a row for that (month, token) - with amount 0, against the claim that rows
exist only for pairs with nonzero aggregated amount. -/
theorem c6_counterexample :
    c6Out.2 = [⟨23640, "p6", "V6", "0xT6", 0⟩] := by
  decide
